import Mathlib

/-!
Shallow embedding of the DoH proxy in `src/functions/dns-query.js`.

JavaScript `Map`s are modelled as association lists in insertion order
(`Map.set` replaces the value of an existing key in place, otherwise
appends; `Map.delete` removes the entry; `Map.keys()` iterates in
insertion order).  Machine integers are modelled as `Int` with the
ECMAScript 32-bit wrap-around made explicit where the source relies on
it.  Time is an explicit `now : Int` parameter (the source reads
`Date.now()`).  The outbound network is an oracle `Provider →
FetchOutcome`; the settling order of concurrent requests is an oracle
`Provider → Nat` (earlier number = settles first).
-/

deriving instance DecidableEq for Except

namespace DohCFP

/-! ### JavaScript-level helpers -/

/-- ECMAScript `ToInt32`: wrap an integer into the signed 32-bit range. -/
def toInt32 (n : Int) : Int :=
  let m := n % 4294967296
  if m < 2147483648 then m else m - 4294967296

/-- `Map.get`: value of the first entry with the given key, if any. -/
def mapGet {α : Type} (k : String) : List (String × α) → Option α
  | [] => none
  | p :: m => if p.1 = k then some p.2 else mapGet k m

/-- `Map.set`: replace the value of an existing key in place (insertion
order kept), otherwise append a fresh entry at the end. -/
def mapSet {α : Type} (k : String) (v : α) : List (String × α) → List (String × α)
  | [] => [(k, v)]
  | p :: m => if p.1 = k then (k, v) :: m else p :: mapSet k v m

/-- `Map.delete`: remove the entry with the given key. -/
def mapDelete {α : Type} (k : String) : List (String × α) → List (String × α)
  | [] => []
  | p :: m => if p.1 = k then mapDelete k m else p :: mapDelete k m

/-- Well-formedness of a JS `Map` model: keys are pairwise distinct. -/
def MapWF {α : Type} (m : List (String × α)) : Prop :=
  (m.map Prod.fst).Nodup

/-! ### Constants and the provider registry (`DOH_PROVIDERS` etc.) -/

structure Provider where
  url : String
  name : String
  deriving DecidableEq, Repr

def DOH_PROVIDERS : List Provider :=
  [{ url := "https://freedns.controld.com/family", name := "ControlD" }]

def DNS_MESSAGE_TYPE : String := "application/dns-message"

def DNS_JSON_TYPE : String := "application/dns-json"

def DEFAULT_CACHE_TTL : Int := 300000

def MAX_CACHE_SIZE : Nat := 5000

def HEALTH_RESET_INTERVAL : Int := 60000

/-! ### Health tracker (`providerHealth`, `markProviderFailed`,
`getHealthyProviders`) -/

structure HealthRec where
  failures : Int
  lastCheck : Int
  deriving DecidableEq, Repr

abbrev HealthMap : Type := List (String × HealthRec)

/-- `markProviderFailed`: increment the failure count (creating the
record with count `0` first if absent) and refresh the timestamp. -/
def markProviderFailed (h : HealthMap) (now : Int) (url : String) : HealthMap :=
  let current := (mapGet url h).getD { failures := 0, lastCheck := now }
  mapSet url { failures := current.failures + 1, lastCheck := now } h

/-- The sort key used by `getHealthyProviders`'s comparator: a record
older than `HEALTH_RESET_INTERVAL` is deleted inside the comparator and
then read back as absent, so it contributes failure count `0`
(`providerHealth.get(url)?.failures || 0`). -/
def healthRank (h : HealthMap) (now : Int) (url : String) : Int :=
  match mapGet url h with
  | some r => if now - r.lastCheck > HEALTH_RESET_INTERVAL then 0 else r.failures
  | none => 0

/-- Insert into a list already sorted by `rank`, before the first
element of greater-or-equal rank. -/
def orderedInsertBy (rank : Provider → Int) (a : Provider) : List Provider → List Provider
  | [] => [a]
  | b :: l => if rank a ≤ rank b then a :: b :: l else b :: orderedInsertBy rank a l

/-- Stable ascending sort by `rank`, modelling `Array.prototype.sort`
(stable per the ECMAScript specification) with the numeric comparator
`failuresA - failuresB`. -/
def insertionSortBy (rank : Provider → Int) : List Provider → List Provider
  | [] => []
  | a :: l => orderedInsertBy rank a (insertionSortBy rank l)

/-- `getHealthyProviders`: `[...DOH_PROVIDERS].sort(...)` ordered
ascending by current (non-stale) failure count.  The comparator's
deletion of stale records does not change any rank (a stale record and
an absent record both rank `0`), so the post-sort health map is not
tracked here. -/
def getHealthyProviders (h : HealthMap) (now : Int) (ps : List Provider) : List Provider :=
  insertionSortBy (fun p => healthRank h now p.url) ps

/-! ### Race orchestrator (`raceProviders`) -/

/-- Outcome of one outbound `makeRequest` call: a thrown error (network
failure or timeout abort), or an HTTP response with its `ok` flag and an
identifier standing for the `Response` object. -/
inductive FetchOutcome where
  | err : FetchOutcome
  | resp : Bool → Nat → FetchOutcome
  deriving DecidableEq, Repr

def isSuccess (o : FetchOutcome) : Bool :=
  match o with
  | .resp true _ => true
  | _ => false

/-- `markProviderFailed` calls made by one racing attempt.  A non-ok
response is marked once inside the `if (!response.ok)` block, then the
`throw` there is caught by the attempt's own `catch`, which marks the
same provider a second time.  An error or timeout is marked once, in the
`catch`.  A success is never marked. -/
def racingFailMarks (p : Provider) (o : FetchOutcome) : List String :=
  match o with
  | .err => [p.url]
  | .resp ok _ => if ok then [] else [p.url, p.url]

/-- `Promise.any` over the racing attempts: the first attempt to fulfil
wins (smallest settling time; a tie is resolved in favour of the earlier
array position). Returns the winning provider and its response. -/
def raceWinner (outcome : Provider → FetchOutcome) (time : Provider → Nat) :
    List Provider → Option (Provider × Nat)
  | [] => none
  | p :: ps =>
    match outcome p with
    | .resp true id =>
      match raceWinner outcome time ps with
      | some (q, j) => if time q < time p then some (q, j) else some (p, id)
      | none => some (p, id)
    | _ => raceWinner outcome time ps

/-- The sequential fallback loop: providers one at a time in order; a
non-ok response or an error marks the provider once and moves on; the
first ok response is returned at once.  Returns (result, fail marks,
providers actually attempted). -/
def sequentialFallback (outcome : Provider → FetchOutcome) :
    List Provider → Option Nat × List String × List Provider
  | [] => (none, [], [])
  | p :: ps =>
    match outcome p with
    | .resp true id => (some id, [], [p])
    | _ =>
      let rest := sequentialFallback outcome ps
      (rest.1, p.url :: rest.2.1, p :: rest.2.2)

structure RaceOutput where
  result : Except String Nat
  failCalls : List String
  racingSet : List Provider
  fallbackEntered : Bool
  fallbackTried : List Provider
  deriving DecidableEq, Repr

/-- `raceProviders`: race the first 3 health-ordered providers
(first-success-wins); losing racing attempts still run to completion, so
their `markProviderFailed` calls happen regardless of the winner.  Only
when every racing attempt fails is the remainder tried sequentially;
when that too is exhausted the call fails with
`"All DNS providers failed"`. -/
def raceProviders (ps : List Provider) (h : HealthMap) (now : Int)
    (outcome : Provider → FetchOutcome) (time : Provider → Nat) : RaceOutput :=
  let providers := getHealthyProviders h now ps
  let racing := providers.take 3
  let racingMarks := racing.flatMap (fun p => racingFailMarks p (outcome p))
  match raceWinner outcome time racing with
  | some (_, id) =>
    { result := .ok id, failCalls := racingMarks, racingSet := racing,
      fallbackEntered := false, fallbackTried := [] }
  | none =>
    let rest := sequentialFallback outcome (providers.drop 3)
    match rest.1 with
    | some id =>
      { result := .ok id, failCalls := racingMarks ++ rest.2.1, racingSet := racing,
        fallbackEntered := true, fallbackTried := rest.2.2 }
    | none =>
      { result := .error "All DNS providers failed",
        failCalls := racingMarks ++ rest.2.1, racingSet := racing,
        fallbackEntered := true, fallbackTried := rest.2.2 }

/-- Apply a sequence of `markProviderFailed` calls to the health map. -/
def applyFailures (h : HealthMap) (now : Int) (urls : List String) : HealthMap :=
  urls.foldl (fun acc u => markProviderFailed acc now u) h

/-! ### Cache store (`dnsCache`, `getFromCache`, `setCache`) -/

/-- An `ArrayBuffer` payload, as its byte sequence. -/
abbrev Payload : Type := List Nat

structure CacheEntry where
  data : Payload
  timestamp : Int
  ttl : Int
  deriving DecidableEq, Repr

abbrev CacheMap : Type := List (String × CacheEntry)

/-- `getFromCache`: return the entry's data while `now - timestamp <
ttl`; otherwise (expired, or absent — `Map.delete` on an absent key is a
no-op) delete the entry and miss.  Returns the hit and the store after
the lookup. -/
def getFromCache (c : CacheMap) (now : Int) (key : String) : Option Payload × CacheMap :=
  match mapGet key c with
  | some e =>
    if now - e.timestamp < e.ttl then (some e.data, c)
    else (none, mapDelete key c)
  | none => (none, mapDelete key c)

/-- `ttl || DEFAULT_CACHE_TTL`: a missing argument or the (falsy) value
`0` selects the default. -/
def jsOrDefaultTTL (t : Option Int) : Int :=
  match t with
  | some v => if v = 0 then DEFAULT_CACHE_TTL else v
  | none => DEFAULT_CACHE_TTL

/-- `setCache`: when the store has reached `MAX_CACHE_SIZE`, delete the
first 100 keys in insertion order (`Array.from(dnsCache.keys()).slice(0,
100)`), then insert the entry. -/
def setCache (c : CacheMap) (now : Int) (key : String) (data : Payload)
    (ttl : Option Int) : CacheMap :=
  let c1 :=
    if MAX_CACHE_SIZE ≤ c.length then
      ((c.map Prod.fst).take 100).foldl (fun acc k => mapDelete k acc) c
    else c
  mapSet key { data := data, timestamp := now, ttl := jsOrDefaultTTL ttl } c1

/-! ### TTL extractor (`extractTTLFromResponse`) -/

/-- `DataView.getUint8`: bytes of a real `ArrayBuffer` are below 256;
the reduction keeps the model total on arbitrary `Nat` lists. -/
def byteAt (d : Payload) (i : Nat) : Nat := (d.getD i 0) % 256

/-- `DataView.getUint32` big-endian; `none` models the `RangeError`
thrown on an out-of-bounds read (absorbed by the source's `try`). -/
def getUint32 (d : Payload) (i : Nat) : Option Nat :=
  if i + 4 ≤ d.length then
    some (byteAt d i * 16777216 + byteAt d (i + 1) * 65536 +
          byteAt d (i + 2) * 256 + byteAt d (i + 3))
  else none

/-- The question-name scan loop body, with the remaining iteration
count (`length - 4 - offset`, the loop's variant) made an explicit
argument so the recursion is structural. -/
def scanFrom (d : Payload) (offset : Nat) : Nat → Nat
  | 0 => offset
  | fuel + 1 => if byteAt d offset ≠ 0 then scanFrom d (offset + 1) fuel else offset

/-- The question-name scan: starting at offset 12, advance while the
offset is below `length - 4` and the byte there is non-zero. -/
def scanQuestionEnd (d : Payload) (offset : Nat) : Nat :=
  scanFrom d offset (d.length - 4 - offset)

/-- `extractTTLFromResponse`: best-effort scan for the first answer's
TTL; any irregularity falls back to `DEFAULT_CACHE_TTL`. -/
def extractTTLFromResponse (d : Payload) : Int :=
  if 20 < d.length then
    let offset := scanQuestionEnd d 12 + 5
    if offset + 10 < d.length then
      match getUint32 d (offset + 6) with
      | some ttl => if 0 < ttl ∧ ttl < 86400 then (ttl : Int) * 1000 else DEFAULT_CACHE_TTL
      | none => DEFAULT_CACHE_TTL
    else DEFAULT_CACHE_TTL
  else DEFAULT_CACHE_TTL

/-! ### Dedup coordinator (`inFlightRequests`, `deduplicatedFetch`) -/

abbrev InFlightMap : Type := List (String × Nat)

structure DedupResult where
  promiseId : Nat
  inflight : InFlightMap
  producerRuns : Nat
  deriving DecidableEq, Repr

/-- `deduplicatedFetch` up to the `await`: an existing in-flight promise
for the key is returned as-is (the producer is not invoked); otherwise
the producer is started (`producerRuns = 1`), and its promise — with the
`.finally` deregistration attached — is registered under the key.  The
check and the registration happen in one JavaScript run-to-completion
slice, so they are modelled as one atomic step. -/
def deduplicatedFetch (m : InFlightMap) (key : String) (fresh : Nat) : DedupResult :=
  match mapGet key m with
  | some p => { promiseId := p, inflight := m, producerRuns := 0 }
  | none => { promiseId := fresh, inflight := mapSet key fresh m, producerRuns := 1 }

/-- The `.finally` handler: deregister the key unconditionally, on
fulfilment and on rejection alike. -/
def completeFetch (m : InFlightMap) (key : String) : InFlightMap :=
  mapDelete key m

/-- A round of concurrent callers of `deduplicatedFetch` on the same
key, each step atomic (JavaScript run-to-completion), each caller
supplying its own fresh promise id.  Returns the promise ids handed to
the callers, the final in-flight map, and how many times the producer
was invoked. -/
def dedupRound (m : InFlightMap) (key : String) :
    List Nat → List Nat × InFlightMap × Nat
  | [] => ([], m, 0)
  | f :: fs =>
    let r := deduplicatedFetch m key f
    let rest := dedupRound r.inflight key fs
    (r.promiseId :: rest.1, rest.2.1, r.producerRuns + rest.2.2)

/-! ### Cache keys (`getCacheKey`) -/

/-- One step of the rolling hash: `hash = (hash << 5) - hash + arr[i];
hash = hash & hash` — both operators wrap to signed 32 bits. -/
def binHashStep (hash : Int) (b : Nat) : Int :=
  toInt32 (toInt32 (hash * 32) - hash + b)

/-- `getCacheKey` on a string argument. -/
def getCacheKeyStr (s : String) : String := "dns:" ++ s

/-- `getCacheKey` on a binary argument: rolling hash over at most the
first 32 bytes. -/
def getCacheKeyBin (data : Payload) : String :=
  "dns:bin:" ++ toString ((data.take 32).foldl binHashStep 0)

/-! ### Request handlers (`GET`, `POST`) -/

/-- JavaScript truthiness of `searchParams.get(...)`: `null` and the
empty string are falsy. -/
def jsTruthy (o : Option String) : Bool :=
  match o with
  | some s => !(s == "")
  | none => false

/-- Template-literal interpolation of a nullable string: `null` prints
as `"null"`. -/
def jsTemplateStr (o : Option String) : String := o.getD "null"

/-- `searchParams.get("type") || "A"`. -/
def typeOrA (o : Option String) : String :=
  match o with
  | some s => if s = "" then "A" else s
  | none => "A"

/-- UTF-8 bytes of a Unicode code point. -/
def utf8Bytes (n : Nat) : List Nat :=
  if n < 128 then [n]
  else if n < 2048 then [192 + n / 64, 128 + n % 64]
  else if n < 65536 then [224 + n / 4096, 128 + (n / 64) % 64, 128 + n % 64]
  else [240 + n / 262144, 128 + (n / 4096) % 64, 128 + (n / 64) % 64, 128 + n % 64]

def hexDigit (n : Nat) : Char := Char.ofNat (if n < 10 then 48 + n else 55 + n)

def percentEncodeByte (b : Nat) : String :=
  String.mk [Char.ofNat 37, hexDigit (b / 16), hexDigit (b % 16)]

/-- The characters `encodeURIComponent` leaves intact: ASCII letters,
digits, and `- _ . ! ~ * ( )` and the apostrophe. -/
def isUnreservedChar (c : Char) : Bool :=
  (65 ≤ c.toNat && c.toNat ≤ 90) || (97 ≤ c.toNat && c.toNat ≤ 122) ||
  (48 ≤ c.toNat && c.toNat ≤ 57) ||
  c.toNat == 45 || c.toNat == 95 || c.toNat == 46 || c.toNat == 33 ||
  c.toNat == 126 || c.toNat == 42 || c.toNat == 39 || c.toNat == 40 || c.toNat == 41

/-- ECMAScript `encodeURIComponent` (modelled builtin). -/
def encodeURIComponent (s : String) : String :=
  String.join (s.toList.map (fun c =>
    if isUnreservedChar c then String.mk [c]
    else String.join ((utf8Bytes c.toNat).map percentEncodeByte)))

/-- The parts of an inbound `Request` the handlers look at. -/
structure Request where
  dns : Option String
  nameParam : Option String
  typeParam : Option String
  accept : Option String
  contentTypeHeader : Option String
  body : Payload
  deriving DecidableEq, Repr

/-- The parts of an outbound `Response` the spec talks about: the status,
the `Content-Type` header (the 400 responses set none), and the body. -/
structure HttpResponse where
  status : Nat
  contentTypeHeader : Option String
  body : Option Payload
  bodyText : Option String
  deriving DecidableEq, Repr

/-- The process-wide mutable maps, passed explicitly. -/
structure HandlerState where
  cache : CacheMap
  inflight : InFlightMap
  health : HealthMap
  deriving DecidableEq, Repr

/-- What one handler invocation did: its result (`Except.error` is an
uncaught promise rejection escaping the handler), the state after it,
and the observables the spec constrains — the derived cache key, the
query string of the outbound request the producer builds, the providers
contacted, the `markProviderFailed` calls, and whether this call ran the
producer. -/
structure HandlerOutput where
  result : Except String HttpResponse
  state : HandlerState
  cacheKeyUsed : Option String
  outboundQuery : Option String
  providersTried : List Provider
  failCalls : List String
  producerRuns : Nat
  deriving DecidableEq, Repr

def response400 (text : String) : HttpResponse :=
  { status := 400, contentTypeHeader := none, body := none, bodyText := some text }

def response200 (ct : String) (data : Payload) : HttpResponse :=
  { status := 200, contentTypeHeader := some ct, body := some data, bodyText := none }

/-- The shared miss path of every handler branch: `deduplicatedFetch`
around a `raceProviders` producer, then `setCache` (with an extracted
TTL on the binary paths) and a 200 response.  A pre-existing in-flight
promise is awaited instead (`pending` gives its settlement); the
producer's promise settles with the winning response's body (`respBody`)
or rejects with the race error, and its `.finally` deregisters the
key. -/
def runPipeline (st : HandlerState) (cache1 : CacheMap) (now : Int)
    (outcome : Provider → FetchOutcome) (time : Provider → Nat)
    (respBody : Nat → Payload) (pending : Nat → Except String Payload) (fresh : Nat)
    (cacheKey : String) (binaryTTL : Bool) (ct : String) (oq : String) : HandlerOutput :=
  let ded := deduplicatedFetch st.inflight cacheKey fresh
  if ded.producerRuns = 0 then
    match pending ded.promiseId with
    | .ok data =>
      let ttlArg := if binaryTTL then some (extractTTLFromResponse data) else none
      { result := .ok (response200 ct data),
        state := { cache := setCache cache1 now cacheKey data ttlArg,
                   inflight := st.inflight, health := st.health },
        cacheKeyUsed := some cacheKey, outboundQuery := none,
        providersTried := [], failCalls := [], producerRuns := 0 }
    | .error e =>
      { result := .error e,
        state := { cache := cache1, inflight := st.inflight, health := st.health },
        cacheKeyUsed := some cacheKey, outboundQuery := none,
        providersTried := [], failCalls := [], producerRuns := 0 }
  else
    let race := raceProviders DOH_PROVIDERS st.health now outcome time
    let health2 := applyFailures st.health now race.failCalls
    let inflight2 := completeFetch ded.inflight cacheKey
    match race.result with
    | .ok id =>
      let data := respBody id
      let ttlArg := if binaryTTL then some (extractTTLFromResponse data) else none
      { result := .ok (response200 ct data),
        state := { cache := setCache cache1 now cacheKey data ttlArg,
                   inflight := inflight2, health := health2 },
        cacheKeyUsed := some cacheKey, outboundQuery := some oq,
        providersTried := race.racingSet ++ race.fallbackTried,
        failCalls := race.failCalls, producerRuns := 1 }
    | .error e =>
      { result := .error e,
        state := { cache := cache1, inflight := inflight2, health := health2 },
        cacheKeyUsed := some cacheKey, outboundQuery := some oq,
        providersTried := race.racingSet ++ race.fallbackTried,
        failCalls := race.failCalls, producerRuns := 1 }

/-- The `GET` handler.  The JSON discriminator (`Accept:
application/dns-json`, or a truthy `name` parameter) is tested before
the `dns` parameter; a request matching neither gets the fixed 400. -/
def GET (req : Request) (st : HandlerState) (now : Int)
    (outcome : Provider → FetchOutcome) (time : Provider → Nat)
    (respBody : Nat → Payload) (pending : Nat → Except String Payload)
    (fresh : Nat) : HandlerOutput :=
  if req.accept = some DNS_JSON_TYPE ∨ jsTruthy req.nameParam then
    let typeParam := typeOrA req.typeParam
    let cacheKey := getCacheKeyStr ("json:" ++ jsTemplateStr req.nameParam ++ ":" ++ typeParam)
    let looked := getFromCache st.cache now cacheKey
    match looked.1 with
    | some data =>
      { result := .ok (response200 DNS_JSON_TYPE data),
        state := { st with cache := looked.2 },
        cacheKeyUsed := some cacheKey, outboundQuery := none,
        providersTried := [], failCalls := [], producerRuns := 0 }
    | none =>
      let oq := "?name=" ++ encodeURIComponent (req.nameParam.getD "") ++ "&type=" ++ typeParam
      runPipeline st looked.2 now outcome time respBody pending fresh
        cacheKey false DNS_JSON_TYPE oq
  else if jsTruthy req.dns then
    let dnsParam := req.dns.getD ""
    let cacheKey := getCacheKeyStr dnsParam
    let looked := getFromCache st.cache now cacheKey
    match looked.1 with
    | some data =>
      { result := .ok (response200 DNS_MESSAGE_TYPE data),
        state := { st with cache := looked.2 },
        cacheKeyUsed := some cacheKey, outboundQuery := none,
        providersTried := [], failCalls := [], producerRuns := 0 }
    | none =>
      runPipeline st looked.2 now outcome time respBody pending fresh
        cacheKey true DNS_MESSAGE_TYPE ("?dns=" ++ dnsParam)
  else
    { result := .ok (response400 "Missing dns parameter"), state := st,
      cacheKeyUsed := none, outboundQuery := none,
      providersTried := [], failCalls := [], producerRuns := 0 }

/-- The `POST` handler: only `Content-Type: application/dns-message` is
accepted; the body is the binary query, keyed by the rolling hash. -/
def POST (req : Request) (st : HandlerState) (now : Int)
    (outcome : Provider → FetchOutcome) (time : Provider → Nat)
    (respBody : Nat → Payload) (pending : Nat → Except String Payload)
    (fresh : Nat) : HandlerOutput :=
  if req.contentTypeHeader ≠ some DNS_MESSAGE_TYPE then
    { result := .ok (response400 "Invalid Content-Type"), state := st,
      cacheKeyUsed := none, outboundQuery := none,
      providersTried := [], failCalls := [], producerRuns := 0 }
  else
    let cacheKey := getCacheKeyBin req.body
    let looked := getFromCache st.cache now cacheKey
    match looked.1 with
    | some data =>
      { result := .ok (response200 DNS_MESSAGE_TYPE data),
        state := { st with cache := looked.2 },
        cacheKeyUsed := some cacheKey, outboundQuery := none,
        providersTried := [], failCalls := [], producerRuns := 0 }
    | none =>
      runPipeline st looked.2 now outcome time respBody pending fresh
        cacheKey true DNS_MESSAGE_TYPE ""

/-! ### Concrete inputs used by the example-level theorems -/

/-- A 30-byte wireformat payload whose question name terminates at
offset 12 and whose scanned TTL field holds the given four bytes
(big-endian). -/
def ttlPayload (b0 b1 b2 b3 : Nat) : Payload :=
  List.replicate 12 0 ++ [0] ++ List.replicate 10 0 ++ [b0, b1, b2, b3] ++ [0, 0, 0]

/-- A cache of 5000 distinct keys, for exercising the eviction branch. -/
def bigCache : CacheMap :=
  (List.range 5000).map
    (fun i => (String.mk (List.replicate i (Char.ofNat 97)),
               { data := [], timestamp := 0, ttl := 1 }))

/-- Number of entries of a map holding the given key (the in-flight
invariant bounds it by one). -/
def keyCount {α : Type} (m : List (String × α)) (k : String) : Nat :=
  (m.filter (fun p => p.1 == k)).length

/-! ### Lemmas about the JS map model -/

theorem mapGet_mapSet_self {α : Type} (m : List (String × α)) (k : String) (v : α) :
    mapGet k (mapSet k v m) = some v := by
  induction m with
  | nil => simp [mapSet, mapGet]
  | cons p m ih =>
    by_cases h : p.1 = k
    · simp [mapSet, h, mapGet]
    · simp [mapSet, h, mapGet, ih]

theorem mapGet_mapSet_ne {α : Type} (m : List (String × α)) (k kr : String) (v : α)
    (h : kr ≠ k) : mapGet kr (mapSet k v m) = mapGet kr m := by
  have hks : k ≠ kr := h.symm
  induction m with
  | nil => simp [mapSet, mapGet, hks]
  | cons p m ih =>
    by_cases hp : p.1 = k
    · simp [mapSet, hp, mapGet, hks]
    · simp [mapSet, hp, mapGet, ih]

theorem mapGet_mapDelete_self {α : Type} (m : List (String × α)) (k : String) :
    mapGet k (mapDelete k m) = none := by
  induction m with
  | nil => simp [mapDelete, mapGet]
  | cons p m ih =>
    by_cases h : p.1 = k
    · simp [mapDelete, h, ih]
    · simp [mapDelete, h, mapGet, ih]

theorem mapGet_mapDelete_ne {α : Type} (m : List (String × α)) (k kr : String)
    (h : kr ≠ k) : mapGet kr (mapDelete k m) = mapGet kr m := by
  induction m with
  | nil => simp [mapDelete, mapGet]
  | cons p m ih =>
    by_cases hp : p.1 = k
    · have hks : k ≠ kr := h.symm
      simp [mapDelete, hp, mapGet, hks, ih]
    · simp [mapDelete, hp, mapGet, ih]

theorem mapDelete_eq_of_not_mem {α : Type} (m : List (String × α)) (k : String)
    (h : k ∉ m.map Prod.fst) : mapDelete k m = m := by
  induction m with
  | nil => simp [mapDelete]
  | cons p m ih =>
    simp only [List.map_cons, List.mem_cons, not_or] at h
    have hp : p.1 ≠ k := fun hh => h.1 hh.symm
    simp [mapDelete, hp, ih h.2]

theorem mapDelete_sublist {α : Type} (m : List (String × α)) (k : String) :
    List.Sublist (mapDelete k m) m := by
  induction m with
  | nil => simp [mapDelete]
  | cons p m ih =>
    by_cases h : p.1 = k
    · simp only [mapDelete, if_pos h]
      exact ih.trans (List.sublist_cons_self p m)
    · simp only [mapDelete, if_neg h]
      exact ih.cons₂ p

theorem keys_mapSet {α : Type} (m : List (String × α)) (k : String) (v : α) :
    (mapSet k v m).map Prod.fst =
      if k ∈ m.map Prod.fst then m.map Prod.fst else m.map Prod.fst ++ [k] := by
  induction m with
  | nil => simp [mapSet]
  | cons p m ih =>
    by_cases h : p.1 = k
    · simp [mapSet, h]
    · have hk : ¬ k = p.1 := fun hh => h hh.symm
      by_cases hm : k ∈ m.map Prod.fst
      · simp [mapSet, h, ih, hm, hk]
      · simp [mapSet, h, ih, hm, hk]

theorem MapWF_mapSet {α : Type} (m : List (String × α)) (k : String) (v : α)
    (hwf : MapWF m) : MapWF (mapSet k v m) := by
  unfold MapWF at hwf ⊢
  rw [keys_mapSet]
  by_cases hm : k ∈ m.map Prod.fst
  · simpa [hm] using hwf
  · simp only [hm, if_false]
    exact List.nodup_append.2 ⟨hwf, List.nodup_singleton k,
      fun a ha hb => hm ((List.mem_singleton.1 hb) ▸ ha)⟩

theorem MapWF_mapDelete {α : Type} (m : List (String × α)) (k : String)
    (hwf : MapWF m) : MapWF (mapDelete k m) :=
  List.Nodup.sublist ((mapDelete_sublist m k).map Prod.fst) hwf

theorem length_mapSet_le {α : Type} (m : List (String × α)) (k : String) (v : α) :
    (mapSet k v m).length ≤ m.length + 1 := by
  induction m with
  | nil => simp [mapSet]
  | cons p m ih =>
    by_cases h : p.1 = k
    · simp [mapSet, h]
    · simpa [mapSet, h] using ih

theorem foldl_mapDelete_take {α : Type} (m : List (String × α)) (n : Nat) (hwf : MapWF m) :
    ((m.map Prod.fst).take n).foldl (fun acc k => mapDelete k acc) m = m.drop n := by
  induction m generalizing n with
  | nil => simp
  | cons p m ih =>
    cases n with
    | zero => simp
    | succ j =>
      unfold MapWF at hwf
      simp only [List.map_cons, List.nodup_cons] at hwf
      have hstep : mapDelete p.1 (p :: m) = m := by
        simp [mapDelete, mapDelete_eq_of_not_mem m p.1 hwf.1]
      simp only [List.map_cons, List.take_succ_cons, List.foldl_cons, hstep,
        List.drop_succ_cons]
      exact ih j hwf.2

/-! ### Cache store lemmas -/

theorem mapGet_setCache_self (c : CacheMap) (now : Int) (key : String) (data : Payload)
    (ttl : Option Int) :
    mapGet key (setCache c now key data ttl) =
      some { data := data, timestamp := now, ttl := jsOrDefaultTTL ttl } := by
  unfold setCache
  by_cases h : MAX_CACHE_SIZE ≤ c.length <;> simp [h, mapGet_mapSet_self]

/-- `setCache` keeps the store well-formed and, from a store within the
capacity bound, keeps it within the bound. -/
theorem setCache_preserves (c : CacheMap) (now : Int) (key : String) (data : Payload)
    (ttl : Option Int) (hwf : MapWF c) (hlen : c.length ≤ MAX_CACHE_SIZE) :
    MapWF (setCache c now key data ttl) ∧
    (setCache c now key data ttl).length ≤ MAX_CACHE_SIZE := by
  by_cases h : MAX_CACHE_SIZE ≤ c.length
  · have heq : c.length = MAX_CACHE_SIZE := le_antisymm hlen h
    simp only [setCache, if_pos h, foldl_mapDelete_take c 100 hwf]
    have hwfd : MapWF (c.drop 100) := by
      unfold MapWF
      exact List.Nodup.sublist ((List.drop_sublist 100 c).map Prod.fst) hwf
    refine ⟨MapWF_mapSet _ _ _ hwfd, ?_⟩
    have hld : (c.drop 100).length = c.length - 100 := List.length_drop 100 c
    have := length_mapSet_le (c.drop 100) key
      { data := data, timestamp := now, ttl := jsOrDefaultTTL ttl }
    simp only [MAX_CACHE_SIZE] at heq ⊢
    omega
  · simp only [setCache, if_neg h]
    refine ⟨MapWF_mapSet _ _ _ hwf, ?_⟩
    have := length_mapSet_le c key
      { data := data, timestamp := now, ttl := jsOrDefaultTTL ttl }
    omega

/-! ### Claim C5 -/

/-- C5: after `setCache(key, payload, ttl)` with `ttl > 0`,
`getFromCache(key)` returns the payload unchanged while the elapsed time
is strictly below `ttl`, and once the elapsed time reaches `ttl` it
misses and purges the entry from the store. -/
theorem cache_put_get_ttl (c : CacheMap) (now nowr : Int) (key : String)
    (data : Payload) (ttl : Int) (hpos : 0 < ttl) :
    (nowr - now < ttl →
      (getFromCache (setCache c now key data (some ttl)) nowr key).1 = some data) ∧
    (ttl ≤ nowr - now →
      (getFromCache (setCache c now key data (some ttl)) nowr key).1 = none ∧
      mapGet key (getFromCache (setCache c now key data (some ttl)) nowr key).2 = none) := by
  have hne : ttl ≠ 0 := by omega
  have hget : mapGet key (setCache c now key data (some ttl)) =
      some { data := data, timestamp := now, ttl := ttl } := by
    rw [mapGet_setCache_self]
    simp [jsOrDefaultTTL, hne]
  constructor
  · intro hlt
    simp [getFromCache, hget, hlt]
  · intro hge
    have hnl : ¬ (nowr - now < ttl) := by omega
    simp [getFromCache, hget, hnl, mapGet_mapDelete_self]

theorem cache_put_get_ttl_witness :
    ((0 : Int) < 5) ∧
    (((3 : Int) - 0 < 5 →
      (getFromCache (setCache [] 0 "k" [7, 8] (some 5)) 3 "k").1 = some [7, 8]) ∧
     ((5 : Int) ≤ 3 - 0 →
      (getFromCache (setCache [] 0 "k" [7, 8] (some 5)) 3 "k").1 = none ∧
      mapGet "k" (getFromCache (setCache [] 0 "k" [7, 8] (some 5)) 3 "k").2 = none)) :=
  ⟨by decide, cache_put_get_ttl [] 0 3 "k" [7, 8] 5 (by decide)⟩

/-! ### Claim C6 -/

/-- C6: when the store holds `MAX_CACHE_SIZE` (5000) or more entries,
`setCache` first evicts exactly the 100 oldest-inserted entries and then
inserts; consequently any sequence of insertions starting from a store
within the bound never leaves more than 5000 entries. -/
theorem setCache_eviction_bound (c : CacheMap) (now : Int) (key : String)
    (data : Payload) (ttl : Option Int) (hwf : MapWF c) :
    (MAX_CACHE_SIZE ≤ c.length →
      setCache c now key data ttl =
        mapSet key { data := data, timestamp := now, ttl := jsOrDefaultTTL ttl }
          (c.drop 100)) ∧
    (c.length ≤ MAX_CACHE_SIZE → (setCache c now key data ttl).length ≤ MAX_CACHE_SIZE) ∧
    (∀ ops : List (Int × String × Payload × Option Int), c.length ≤ MAX_CACHE_SIZE →
      (ops.foldl (fun acc op => setCache acc op.1 op.2.1 op.2.2.1 op.2.2.2) c).length ≤
        MAX_CACHE_SIZE) := by
  refine ⟨?_, ?_, ?_⟩
  · intro hcap
    unfold setCache
    rw [if_pos hcap, foldl_mapDelete_take c 100 hwf]
  · intro hlen
    exact (setCache_preserves c now key data ttl hwf hlen).2
  · intro ops
    clear now key data ttl
    induction ops generalizing c with
    | nil => intro hlen; simpa using hlen
    | cons op rest ih =>
      intro hlen
      simp only [List.foldl_cons]
      have hstep := setCache_preserves c op.1 op.2.1 op.2.2.1 op.2.2.2 hwf hlen
      exact ih _ hstep.1 hstep.2

theorem setCache_eviction_bound_witness :
    MapWF bigCache ∧
    ((MAX_CACHE_SIZE ≤ bigCache.length →
      setCache bigCache 0 "k" [] none =
        mapSet "k" { data := [], timestamp := 0, ttl := jsOrDefaultTTL none }
          (bigCache.drop 100)) ∧
     (bigCache.length ≤ MAX_CACHE_SIZE →
      (setCache bigCache 0 "k" [] none).length ≤ MAX_CACHE_SIZE) ∧
     (∀ ops : List (Int × String × Payload × Option Int),
       bigCache.length ≤ MAX_CACHE_SIZE →
       (ops.foldl (fun acc op => setCache acc op.1 op.2.1 op.2.2.1 op.2.2.2)
          bigCache).length ≤ MAX_CACHE_SIZE)) := by
  have hinj : Function.Injective (fun i : Nat => String.mk (List.replicate i (Char.ofNat 97))) := by
    intro a b hab
    have hdata : List.replicate a (Char.ofNat 97) = List.replicate b (Char.ofNat 97) := by
      simpa using congrArg String.data hab
    simpa using congrArg List.length hdata
  have hwf : MapWF bigCache := by
    unfold MapWF bigCache
    rw [List.map_map]
    exact List.Nodup.map hinj (List.nodup_range 5000)
  exact ⟨hwf, setCache_eviction_bound bigCache 0 "k" [] none hwf⟩

/-! ### Claim C7 -/

/-- C7: `extractTTLFromResponse` is total; a payload of at most 20
bytes, an out-of-bounds scan, or a candidate outside the open interval
(0, 86400) seconds yields the default 300000 ms, and a candidate
strictly inside the interval yields the candidate in milliseconds.  A
30-byte payload carrying TTL 120 s yields 120000 ms, one carrying
90000 s yields the default. -/
theorem extractTTL_total_bounds :
    (∀ d : Payload,
      (d.length ≤ 20 → extractTTLFromResponse d = DEFAULT_CACHE_TTL) ∧
      (extractTTLFromResponse d = DEFAULT_CACHE_TTL ∨
        ∃ t : Nat, 0 < t ∧ t < 86400 ∧
          getUint32 d (scanQuestionEnd d 12 + 5 + 6) = some t ∧
          extractTTLFromResponse d = (t : Int) * 1000)) ∧
    extractTTLFromResponse (ttlPayload 0 0 0 120) = 120000 ∧
    extractTTLFromResponse (ttlPayload 0 1 95 144) = DEFAULT_CACHE_TTL := by
  refine ⟨fun d => ⟨?_, ?_⟩, by decide, by decide⟩
  · intro hle
    simp only [extractTTLFromResponse]
    rw [if_neg (by omega)]
  · simp only [extractTTLFromResponse]
    by_cases h1 : 20 < d.length
    · rw [if_pos h1]
      by_cases h2 : scanQuestionEnd d 12 + 5 + 10 < d.length
      · rw [if_pos h2]
        cases hg : getUint32 d (scanQuestionEnd d 12 + 5 + 6) with
        | none => left; rfl
        | some t =>
          by_cases h3 : 0 < t ∧ t < 86400
          · right
            refine ⟨t, h3.1, h3.2, rfl, ?_⟩
            show (if 0 < t ∧ t < 86400 then (t : Int) * 1000 else DEFAULT_CACHE_TTL) =
              (t : Int) * 1000
            rw [if_pos h3]
          · left
            show (if 0 < t ∧ t < 86400 then (t : Int) * 1000 else DEFAULT_CACHE_TTL) =
              DEFAULT_CACHE_TTL
            rw [if_neg h3]
      · rw [if_neg h2]
        left; rfl
    · rw [if_neg h1]
      left; rfl

theorem extractTTL_total_bounds_witness :
    ([] : Payload).length ≤ 20 ∧ extractTTLFromResponse [] = DEFAULT_CACHE_TTL :=
  ⟨by decide, (extractTTL_total_bounds.1 []).1 (by decide)⟩

/-! ### Dedup coordinator lemmas -/

theorem dedupRound_hit (m : InFlightMap) (key : String) (fs : List Nat) (p : Nat)
    (h : mapGet key m = some p) :
    dedupRound m key fs = (List.replicate fs.length p, m, 0) := by
  induction fs with
  | nil => simp [dedupRound]
  | cons f fs ih => simp [dedupRound, deduplicatedFetch, h, ih, List.replicate_succ]

theorem keyCount_mapSet_le_one {α : Type} (m : List (String × α)) (k : String) (v : α)
    (h : keyCount m k ≤ 1) : keyCount (mapSet k v m) k ≤ 1 := by
  induction m with
  | nil => simp [keyCount, mapSet]
  | cons p m ih =>
    by_cases hp : p.1 = k
    · simp only [keyCount, mapSet, if_pos hp, List.filter] at h ⊢
      simp only [hp, beq_self_eq_true] at h ⊢
      simp only [List.length_cons] at h ⊢
      omega
    · have hpb : (p.1 == k) = false := beq_false_of_ne hp
      simp only [keyCount, mapSet, if_neg hp, List.filter_cons, hpb] at h ⊢
      exact ih h

theorem keyCount_mapDelete_zero {α : Type} (m : List (String × α)) (k : String) :
    keyCount (mapDelete k m) k = 0 := by
  induction m with
  | nil => simp [keyCount, mapDelete]
  | cons p m ih =>
    by_cases hp : p.1 = k
    · simp only [mapDelete, if_pos hp]
      exact ih
    · have hpb : (p.1 == k) = false := beq_false_of_ne hp
      simp only [keyCount, mapDelete, if_neg hp, List.filter_cons, hpb] at ih ⊢
      exact ih

/-! ### Claim C4 -/

/-- C4: with no in-flight record for the key, a round of N concurrent
`deduplicatedFetch` calls runs the producer exactly once, hands every
caller the same promise (hence the same payload or the same error), and
the key's record — unique at every instant — is removed unconditionally
by the `.finally` when the fetch completes. -/
theorem dedup_single_flight (m : InFlightMap) (key : String) (f0 : Nat) (rest : List Nat)
    (hnone : mapGet key m = none) :
    (dedupRound m key (f0 :: rest)).2.2 = 1 ∧
    (dedupRound m key (f0 :: rest)).1 = List.replicate (rest.length + 1) f0 ∧
    (∀ oc : Nat → Except String Payload,
      ((dedupRound m key (f0 :: rest)).1).map oc =
        List.replicate (rest.length + 1) (oc f0)) ∧
    mapGet key (dedupRound m key (f0 :: rest)).2.1 = some f0 ∧
    mapGet key (completeFetch (dedupRound m key (f0 :: rest)).2.1 key) = none ∧
    (∀ (m2 : InFlightMap) (k2 : String) (f2 : Nat), keyCount m2 k2 ≤ 1 →
      keyCount ((deduplicatedFetch m2 k2 f2).inflight) k2 ≤ 1 ∧
      keyCount (completeFetch m2 k2) k2 = 0) := by
  have hfirst : deduplicatedFetch m key f0 =
      { promiseId := f0, inflight := mapSet key f0 m, producerRuns := 1 } := by
    simp [deduplicatedFetch, hnone]
  have hreg : mapGet key (mapSet key f0 m) = some f0 := mapGet_mapSet_self m key f0
  have hrn : dedupRound m key (f0 :: rest) =
      (f0 :: List.replicate rest.length f0, mapSet key f0 m, 1) := by
    simp [dedupRound, hfirst, dedupRound_hit (mapSet key f0 m) key rest f0 hreg]
  refine ⟨by rw [hrn], by rw [hrn]; simp [List.replicate_succ], ?_, ?_, ?_, ?_⟩
  · intro oc
    rw [hrn]
    simp [List.replicate_succ]
  · rw [hrn]
    exact hreg
  · rw [hrn]
    exact mapGet_mapDelete_self _ key
  · intro m2 k2 f2 hle
    refine ⟨?_, keyCount_mapDelete_zero m2 k2⟩
    unfold deduplicatedFetch
    cases hdd : mapGet k2 m2 with
    | some p => simpa using hle
    | none => simpa using keyCount_mapSet_le_one m2 k2 f2 hle

theorem dedup_single_flight_witness :
    mapGet "k" ([] : InFlightMap) = none ∧
    (dedupRound [] "k" [5, 9]).2.2 = 1 ∧
    (dedupRound [] "k" [5, 9]).1 = List.replicate 2 5 :=
  ⟨rfl, (dedup_single_flight [] "k" 5 [9] rfl).1, (dedup_single_flight [] "k" 5 [9] rfl).2.1⟩

/-! ### Sorting lemmas for the health ordering -/

theorem perm_orderedInsertBy (rank : Provider → Int) (a : Provider) (l : List Provider) :
    List.Perm (orderedInsertBy rank a l) (a :: l) := by
  induction l with
  | nil => simp [orderedInsertBy]
  | cons b t ih =>
    by_cases h : rank a ≤ rank b
    · simp [orderedInsertBy, h]
    · simp only [orderedInsertBy, if_neg h]
      exact (ih.cons b).trans (List.Perm.swap a b t)

theorem perm_insertionSortBy (rank : Provider → Int) (l : List Provider) :
    List.Perm (insertionSortBy rank l) l := by
  induction l with
  | nil => simp [insertionSortBy]
  | cons a t ih =>
    exact (perm_orderedInsertBy rank a _).trans (ih.cons a)

theorem sorted_orderedInsertBy (rank : Provider → Int) (a : Provider) (l : List Provider)
    (hs : List.Pairwise (fun x y => rank x ≤ rank y) l) :
    List.Pairwise (fun x y => rank x ≤ rank y) (orderedInsertBy rank a l) := by
  induction l with
  | nil => simp [orderedInsertBy]
  | cons b t ih =>
    rcases List.pairwise_cons.1 hs with ⟨hb, ht⟩
    by_cases h : rank a ≤ rank b
    · simp only [orderedInsertBy, if_pos h]
      refine List.pairwise_cons.2 ⟨?_, hs⟩
      intro x hx
      rcases List.mem_cons.1 hx with rfl | hx
      · exact h
      · exact le_trans h (hb x hx)
    · simp only [orderedInsertBy, if_neg h]
      refine List.pairwise_cons.2 ⟨?_, ih ht⟩
      intro x hx
      rcases List.mem_cons.1 ((perm_orderedInsertBy rank a t).mem_iff.1 hx) with rfl | hx'
      · exact le_of_lt (lt_of_not_le h)
      · exact hb x hx'

theorem sorted_insertionSortBy (rank : Provider → Int) (l : List Provider) :
    List.Pairwise (fun x y => rank x ≤ rank y) (insertionSortBy rank l) := by
  induction l with
  | nil => simp [insertionSortBy]
  | cons a t ih => exact sorted_orderedInsertBy rank a _ ih

theorem filter_orderedInsertBy (rank : Provider → Int) (a : Provider) (l : List Provider)
    (v : Int) :
    (orderedInsertBy rank a l).filter (fun x => rank x == v) =
      if rank a == v then a :: l.filter (fun x => rank x == v)
      else l.filter (fun x => rank x == v) := by
  induction l with
  | nil =>
    by_cases h : rank a = v
    · simp [orderedInsertBy, List.filter, h]
    · simp [orderedInsertBy, List.filter, beq_false_of_ne h]
  | cons b t ih =>
    by_cases h : rank a ≤ rank b
    · simp only [orderedInsertBy, if_pos h, List.filter_cons]
    · have hba : rank b < rank a := lt_of_not_le h
      by_cases ha : rank a = v
      · have haT : (rank a == v) = true := beq_iff_eq.2 ha
        have hbF : (rank b == v) = false := beq_false_of_ne (by omega)
        simp only [orderedInsertBy, if_neg h, List.filter_cons, hbF, if_false, ih,
          haT, if_true]
        simp
      · have haF : (rank a == v) = false := beq_false_of_ne ha
        simp only [orderedInsertBy, if_neg h, List.filter_cons, ih, haF, if_false]
        simp

theorem filter_insertionSortBy (rank : Provider → Int) (l : List Provider) (v : Int) :
    (insertionSortBy rank l).filter (fun x => rank x == v) =
      l.filter (fun x => rank x == v) := by
  induction l with
  | nil => rfl
  | cons a t ih =>
    simp only [insertionSortBy, filter_orderedInsertBy, ih, List.filter_cons]

theorem healthRank_mapDelete_stale (h : HealthMap) (now : Int) (url : String)
    (r : HealthRec) (hr : mapGet url h = some r)
    (hstale : now - r.lastCheck > HEALTH_RESET_INTERVAL) (u : String) :
    healthRank (mapDelete url h) now u = healthRank h now u := by
  by_cases hu : u = url
  · subst hu
    simp [healthRank, mapGet_mapDelete_self, hr, hstale]
  · simp [healthRank, mapGet_mapDelete_ne h url u hu]

theorem getHealthyProviders_congr (h1 h2 : HealthMap) (now : Int) (ps : List Provider)
    (heq : ∀ u, healthRank h1 now u = healthRank h2 now u) :
    getHealthyProviders h1 now ps = getHealthyProviders h2 now ps := by
  unfold getHealthyProviders
  have hrank : (fun p : Provider => healthRank h1 now p.url) =
      (fun p : Provider => healthRank h2 now p.url) :=
    funext fun p => heq p.url
  rw [hrank]

/-! ### Claim C8 -/

/-- C8: `getHealthyProviders` is a stable ascending sort of the provider
list by current failure count (equal counts keep input order — the
filtered subsequence at each rank value is unchanged), and a health
record older than the 60000 ms reset interval ranks as failure count 0
and has no influence on the ordering (deleting it changes nothing). -/
theorem healthy_ordering_stable (h : HealthMap) (now : Int) (ps : List Provider) :
    List.Pairwise (fun a b => healthRank h now a.url ≤ healthRank h now b.url)
      (getHealthyProviders h now ps) ∧
    List.Perm (getHealthyProviders h now ps) ps ∧
    (∀ v : Int,
      (getHealthyProviders h now ps).filter (fun p => healthRank h now p.url == v) =
        ps.filter (fun p => healthRank h now p.url == v)) ∧
    (∀ url r, mapGet url h = some r → now - r.lastCheck > HEALTH_RESET_INTERVAL →
      healthRank h now url = 0 ∧
      getHealthyProviders h now ps = getHealthyProviders (mapDelete url h) now ps) := by
  refine ⟨sorted_insertionSortBy _ ps, perm_insertionSortBy _ ps,
    fun v => filter_insertionSortBy _ ps v, ?_⟩
  intro url r hr hstale
  constructor
  · simp [healthRank, hr, hstale]
  · exact (getHealthyProviders_congr (mapDelete url h) h now ps
      (healthRank_mapDelete_stale h now url r hr hstale)).symm

theorem healthy_ordering_stable_witness :
    mapGet "u" ([("u", { failures := 3, lastCheck := 0 })] : HealthMap) =
      some { failures := 3, lastCheck := 0 } ∧
    (61000 : Int) - 0 > HEALTH_RESET_INTERVAL ∧
    (healthRank [("u", { failures := 3, lastCheck := 0 })] 61000 "u" = 0 ∧
     getHealthyProviders [("u", { failures := 3, lastCheck := 0 })] 61000 DOH_PROVIDERS =
       getHealthyProviders (mapDelete "u" [("u", { failures := 3, lastCheck := 0 })])
         61000 DOH_PROVIDERS) :=
  ⟨rfl, by decide,
   (healthy_ordering_stable [("u", { failures := 3, lastCheck := 0 })] 61000
     DOH_PROVIDERS).2.2.2 "u" { failures := 3, lastCheck := 0 } rfl (by decide)⟩

/-! ### Race orchestrator lemmas -/

theorem raceWinner_none_iff (outcome : Provider → FetchOutcome) (time : Provider → Nat)
    (l : List Provider) :
    raceWinner outcome time l = none ↔ ∀ p ∈ l, isSuccess (outcome p) = false := by
  induction l with
  | nil => simp [raceWinner]
  | cons p t ih =>
    simp only [List.mem_cons, forall_eq_or_imp]
    cases ho : outcome p with
    | err =>
      simp only [raceWinner, ho]
      rw [ih]
      simp [isSuccess]
    | resp ok id =>
      cases ok with
      | false =>
        simp only [raceWinner, ho]
        rw [ih]
        simp [isSuccess]
      | true =>
        constructor
        · intro hnone
          exfalso
          simp only [raceWinner, ho] at hnone
          cases hw : raceWinner outcome time t with
          | none => rw [hw] at hnone; exact Option.noConfusion hnone
          | some w =>
            obtain ⟨q, j⟩ := w
            rw [hw] at hnone
            replace hnone : (if time q < time p then some (q, j) else some (p, id)) = none :=
              hnone
            by_cases htq : time q < time p
            · rw [if_pos htq] at hnone; exact Option.noConfusion hnone
            · rw [if_neg htq] at hnone; exact Option.noConfusion hnone
        · intro hall
          have hfail := hall.1
          simp [isSuccess] at hfail

theorem raceWinner_some_spec (outcome : Provider → FetchOutcome) (time : Provider → Nat)
    (l : List Provider) (q : Provider) (j : Nat)
    (h : raceWinner outcome time l = some (q, j)) :
    q ∈ l ∧ outcome q = .resp true j ∧
    ∀ r ∈ l, isSuccess (outcome r) = true → time q ≤ time r := by
  induction l generalizing q j with
  | nil => simp [raceWinner] at h
  | cons p t ih =>
    cases ho : outcome p with
    | err =>
      simp only [raceWinner, ho] at h
      obtain ⟨hmem, hout, hmin⟩ := ih q j h
      refine ⟨List.mem_cons_of_mem p hmem, hout, ?_⟩
      intro r hr hsucc
      rcases List.mem_cons.1 hr with rfl | hr'
      · rw [ho] at hsucc; simp [isSuccess] at hsucc
      · exact hmin r hr' hsucc
    | resp ok id =>
      cases ok with
      | false =>
        simp only [raceWinner, ho] at h
        obtain ⟨hmem, hout, hmin⟩ := ih q j h
        refine ⟨List.mem_cons_of_mem p hmem, hout, ?_⟩
        intro r hr hsucc
        rcases List.mem_cons.1 hr with rfl | hr'
        · rw [ho] at hsucc; simp [isSuccess] at hsucc
        · exact hmin r hr' hsucc
      | true =>
        simp only [raceWinner, ho] at h
        cases hw : raceWinner outcome time t with
        | none =>
          rw [hw] at h
          replace h : some (p, id) = some (q, j) := h
          injection h with h'
          rw [Prod.mk.injEq] at h'
          obtain ⟨rfl, rfl⟩ := h'
          refine ⟨List.mem_cons_self p t, ho, ?_⟩
          intro r hr hsucc
          rcases List.mem_cons.1 hr with rfl | hr'
          · exact le_refl _
          · exact absurd hsucc (by simp [(raceWinner_none_iff outcome time t).1 hw r hr'])
        | some w =>
          obtain ⟨q2, j2⟩ := w
          rw [hw] at h
          replace h : (if time q2 < time p then some (q2, j2) else some (p, id)) =
              some (q, j) := h
          obtain ⟨hmem2, hout2, hmin2⟩ := ih q2 j2 hw
          by_cases htq : time q2 < time p
          · rw [if_pos htq] at h
            injection h with h'
            rw [Prod.mk.injEq] at h'
            obtain ⟨rfl, rfl⟩ := h'
            refine ⟨List.mem_cons_of_mem p hmem2, hout2, ?_⟩
            intro r hr hsucc
            rcases List.mem_cons.1 hr with rfl | hr'
            · exact le_of_lt htq
            · exact hmin2 r hr' hsucc
          · rw [if_neg htq] at h
            injection h with h'
            rw [Prod.mk.injEq] at h'
            obtain ⟨rfl, rfl⟩ := h'
            refine ⟨List.mem_cons_self p t, ho, ?_⟩
            intro r hr hsucc
            rcases List.mem_cons.1 hr with rfl | hr'
            · exact le_refl _
            · exact le_trans (not_lt.1 htq) (hmin2 r hr' hsucc)

theorem seqFallback_none_iff (outcome : Provider → FetchOutcome) (l : List Provider) :
    (sequentialFallback outcome l).1 = none ↔
      ∀ p ∈ l, isSuccess (outcome p) = false := by
  induction l with
  | nil => simp [sequentialFallback]
  | cons p t ih =>
    simp only [List.mem_cons, forall_eq_or_imp]
    cases ho : outcome p with
    | err => simp only [sequentialFallback, ho]; rw [ih]; simp [isSuccess]
    | resp ok id =>
      cases ok with
      | false => simp only [sequentialFallback, ho]; rw [ih]; simp [isSuccess]
      | true => simp [sequentialFallback, ho, isSuccess]

theorem seqFallback_marks_eq (outcome : Provider → FetchOutcome) (l : List Provider) :
    (sequentialFallback outcome l).2.1 =
      ((sequentialFallback outcome l).2.2.filter
        (fun p => !(isSuccess (outcome p)))).map Provider.url := by
  induction l with
  | nil => simp [sequentialFallback]
  | cons p t ih =>
    cases ho : outcome p with
    | err => simp [sequentialFallback, ho, ih, isSuccess]
    | resp ok id =>
      cases ok with
      | false => simp [sequentialFallback, ho, ih, isSuccess]
      | true => simp [sequentialFallback, ho, isSuccess]

theorem seqFallback_tried_sublist (outcome : Provider → FetchOutcome) (l : List Provider) :
    List.Sublist (sequentialFallback outcome l).2.2 l := by
  induction l with
  | nil => simp [sequentialFallback]
  | cons p t ih =>
    cases ho : outcome p with
    | err => simp only [sequentialFallback, ho]; exact ih.cons₂ p
    | resp ok id =>
      cases ok with
      | false => simp only [sequentialFallback, ho]; exact ih.cons₂ p
      | true =>
        simp only [sequentialFallback, ho]
        exact (List.nil_sublist t).cons₂ p

theorem seqFallback_all_fail (outcome : Provider → FetchOutcome) (l : List Provider)
    (h : ∀ p ∈ l, isSuccess (outcome p) = false) :
    sequentialFallback outcome l = (none, l.map Provider.url, l) := by
  induction l with
  | nil => simp [sequentialFallback]
  | cons p t ih =>
    have hp := h p (List.mem_cons_self p t)
    have ht : ∀ q ∈ t, isSuccess (outcome q) = false :=
      fun q hq => h q (List.mem_cons_of_mem p hq)
    cases ho : outcome p with
    | err => simp [sequentialFallback, ho, ih ht]
    | resp ok id =>
      cases ok with
      | false => simp [sequentialFallback, ho, ih ht]
      | true => rw [ho] at hp; simp [isSuccess] at hp

theorem seqFallback_first_success (outcome : Provider → FetchOutcome)
    (l1 : List Provider) (p : Provider) (l2 : List Provider) (id : Nat)
    (hfail : ∀ q ∈ l1, isSuccess (outcome q) = false) (hp : outcome p = .resp true id) :
    sequentialFallback outcome (l1 ++ p :: l2) =
      (some id, l1.map Provider.url, l1 ++ [p]) := by
  induction l1 with
  | nil => simp [sequentialFallback, hp]
  | cons q t ih =>
    have hq := hfail q (List.mem_cons_self q t)
    have ht : ∀ r ∈ t, isSuccess (outcome r) = false :=
      fun r hr => hfail r (List.mem_cons_of_mem q hr)
    cases ho : outcome q with
    | err => simp [sequentialFallback, ho, ih ht]
    | resp ok i =>
      cases ok with
      | false => simp [sequentialFallback, ho, ih ht]
      | true => rw [ho] at hq; simp [isSuccess] at hq

theorem raceProviders_winner (ps : List Provider) (h : HealthMap) (now : Int)
    (outcome : Provider → FetchOutcome) (time : Provider → Nat) (q : Provider) (j : Nat)
    (hw : raceWinner outcome time ((getHealthyProviders h now ps).take 3) = some (q, j)) :
    raceProviders ps h now outcome time =
      { result := .ok j,
        failCalls := ((getHealthyProviders h now ps).take 3).flatMap
          (fun p => racingFailMarks p (outcome p)),
        racingSet := (getHealthyProviders h now ps).take 3,
        fallbackEntered := false, fallbackTried := [] } := by
  simp [raceProviders, hw]

theorem raceProviders_noWinner (ps : List Provider) (h : HealthMap) (now : Int)
    (outcome : Provider → FetchOutcome) (time : Provider → Nat)
    (hw : raceWinner outcome time ((getHealthyProviders h now ps).take 3) = none) :
    raceProviders ps h now outcome time =
      { result :=
          match (sequentialFallback outcome ((getHealthyProviders h now ps).drop 3)).1 with
          | some id => .ok id
          | none => .error "All DNS providers failed",
        failCalls := ((getHealthyProviders h now ps).take 3).flatMap
            (fun p => racingFailMarks p (outcome p)) ++
          (sequentialFallback outcome ((getHealthyProviders h now ps).drop 3)).2.1,
        racingSet := (getHealthyProviders h now ps).take 3,
        fallbackEntered := true,
        fallbackTried :=
          (sequentialFallback outcome ((getHealthyProviders h now ps).drop 3)).2.2 } := by
  simp only [raceProviders, hw]
  cases hs : (sequentialFallback outcome ((getHealthyProviders h now ps).drop 3)).1 with
  | some id => simp [hs]
  | none => simp [hs]

/-! ### Claim C2 -/

/-- C2: `raceProviders` races exactly the first 3 health-ordered
providers, and when some racing request succeeds it returns the response
of the earliest-settling racing success — every other racing result is
discarded. -/
theorem race_first_success (ps : List Provider) (h : HealthMap) (now : Int)
    (outcome : Provider → FetchOutcome) (time : Provider → Nat) :
    (raceProviders ps h now outcome time).racingSet =
      (getHealthyProviders h now ps).take 3 ∧
    (∀ p ∈ (getHealthyProviders h now ps).take 3, isSuccess (outcome p) = true →
      ∃ q id, q ∈ (getHealthyProviders h now ps).take 3 ∧
        outcome q = .resp true id ∧
        (raceProviders ps h now outcome time).result = .ok id ∧
        ∀ r ∈ (getHealthyProviders h now ps).take 3, isSuccess (outcome r) = true →
          time q ≤ time r) := by
  constructor
  · cases hw : raceWinner outcome time ((getHealthyProviders h now ps).take 3) with
    | some w =>
      obtain ⟨q, j⟩ := w
      rw [raceProviders_winner ps h now outcome time q j hw]
    | none => rw [raceProviders_noWinner ps h now outcome time hw]
  · intro p hp hsucc
    cases hw : raceWinner outcome time ((getHealthyProviders h now ps).take 3) with
    | none =>
      exfalso
      have hfail := (raceWinner_none_iff outcome time _).1 hw p hp
      rw [hsucc] at hfail
      exact Bool.noConfusion hfail
    | some w =>
      obtain ⟨q, j⟩ := w
      obtain ⟨hqmem, hqout, hqmin⟩ := raceWinner_some_spec outcome time _ q j hw
      refine ⟨q, j, hqmem, hqout, ?_, hqmin⟩
      rw [raceProviders_winner ps h now outcome time q j hw]

theorem race_first_success_witness :
    ({ url := "u1", name := "P1" } : Provider) ∈
      (getHealthyProviders [] 0 [{ url := "u1", name := "P1" }]).take 3 ∧
    isSuccess ((fun _ : Provider => FetchOutcome.resp true 4)
      { url := "u1", name := "P1" }) = true ∧
    (∃ q id, q ∈ (getHealthyProviders [] 0 [{ url := "u1", name := "P1" }]).take 3 ∧
      (fun _ : Provider => FetchOutcome.resp true 4) q = .resp true id ∧
      (raceProviders [{ url := "u1", name := "P1" }] [] 0
        (fun _ => FetchOutcome.resp true 4) (fun _ => 0)).result = .ok id ∧
      ∀ r ∈ (getHealthyProviders [] 0 [{ url := "u1", name := "P1" }]).take 3,
        isSuccess ((fun _ : Provider => FetchOutcome.resp true 4) r) = true →
          (fun _ : Provider => (0 : Nat)) q ≤ (fun _ : Provider => (0 : Nat)) r) :=
  ⟨by decide, by decide,
   (race_first_success [{ url := "u1", name := "P1" }] [] 0
     (fun _ => FetchOutcome.resp true 4) (fun _ => 0)).2
     { url := "u1", name := "P1" } (by decide) (by decide)⟩

/-! ### Claim C3 -/

/-- C3: the sequential fallback (the health-ordered providers beyond the
first 3, one at a time, first success winning) is entered iff every
racing request failed, and the call fails with
`"All DNS providers failed"` iff every provider — racing and fallback —
failed. -/
theorem race_fallback_allfail (ps : List Provider) (h : HealthMap) (now : Int)
    (outcome : Provider → FetchOutcome) (time : Provider → Nat) :
    ((raceProviders ps h now outcome time).fallbackEntered = true ↔
      ∀ p ∈ (getHealthyProviders h now ps).take 3, isSuccess (outcome p) = false) ∧
    ((raceProviders ps h now outcome time).result = .error "All DNS providers failed" ↔
      ∀ p ∈ getHealthyProviders h now ps, isSuccess (outcome p) = false) ∧
    ((raceProviders ps h now outcome time).fallbackEntered = true →
      List.Sublist (raceProviders ps h now outcome time).fallbackTried
        ((getHealthyProviders h now ps).drop 3)) ∧
    ((∀ p ∈ getHealthyProviders h now ps, isSuccess (outcome p) = false) →
      (raceProviders ps h now outcome time).fallbackTried =
        (getHealthyProviders h now ps).drop 3) ∧
    (∀ l1 p l2 id, (getHealthyProviders h now ps).drop 3 = l1 ++ p :: l2 →
      (∀ q ∈ l1, isSuccess (outcome q) = false) → outcome p = .resp true id →
      (∀ r ∈ (getHealthyProviders h now ps).take 3, isSuccess (outcome r) = false) →
      (raceProviders ps h now outcome time).fallbackTried = l1 ++ [p] ∧
      (raceProviders ps h now outcome time).result = .ok id) := by
  have hsplit : ∀ p ∈ getHealthyProviders h now ps,
      p ∈ (getHealthyProviders h now ps).take 3 ∨
      p ∈ (getHealthyProviders h now ps).drop 3 := by
    intro p hp
    rw [← List.take_append_drop 3 (getHealthyProviders h now ps)] at hp
    exact List.mem_append.1 hp
  cases hw : raceWinner outcome time ((getHealthyProviders h now ps).take 3) with
  | some w =>
    obtain ⟨q, j⟩ := w
    obtain ⟨hqmem, hqout, _⟩ := raceWinner_some_spec outcome time _ q j hw
    have hqsucc : isSuccess (outcome q) = true := by rw [hqout]; rfl
    have hqp : q ∈ getHealthyProviders h now ps := List.mem_of_mem_take hqmem
    rw [raceProviders_winner ps h now outcome time q j hw]
    refine ⟨?_, ?_, ?_, ?_, ?_⟩
    · constructor
      · intro hfe; exact Bool.noConfusion hfe
      · intro hall
        rw [hall q hqmem] at hqsucc
        exact Bool.noConfusion hqsucc
    · constructor
      · intro hres; exact Except.noConfusion hres
      · intro hall
        rw [hall q hqp] at hqsucc
        exact Bool.noConfusion hqsucc
    · intro hfe; exact Bool.noConfusion hfe
    · intro hall
      exfalso
      rw [hall q hqp] at hqsucc
      exact Bool.noConfusion hqsucc
    · intro l1 p l2 id hdec hl1 hpok hrfail
      exfalso
      rw [hrfail q hqmem] at hqsucc
      exact Bool.noConfusion hqsucc
  | none =>
    have hallracing : ∀ p ∈ (getHealthyProviders h now ps).take 3,
        isSuccess (outcome p) = false := (raceWinner_none_iff outcome time _).1 hw
    rw [raceProviders_noWinner ps h now outcome time hw]
    refine ⟨⟨fun _ => hallracing, fun _ => rfl⟩, ?_, ?_, ?_, ?_⟩
    · constructor
      · intro hres
        cases hs : (sequentialFallback outcome ((getHealthyProviders h now ps).drop 3)).1 with
        | some id =>
          rw [hs] at hres
          exact Except.noConfusion hres
        | none =>
          intro p hp
          rcases hsplit p hp with hpt | hpd
          · exact hallracing p hpt
          · exact (seqFallback_none_iff outcome _).1 hs p hpd
      · intro hall
        have hfb : ∀ p ∈ (getHealthyProviders h now ps).drop 3,
            isSuccess (outcome p) = false :=
          fun p hp => hall p (List.mem_of_mem_drop hp)
        rw [(seqFallback_none_iff outcome _).2 hfb]
    · intro _
      exact seqFallback_tried_sublist outcome _
    · intro hall
      have hfb : ∀ p ∈ (getHealthyProviders h now ps).drop 3,
          isSuccess (outcome p) = false :=
        fun p hp => hall p (List.mem_of_mem_drop hp)
      rw [seqFallback_all_fail outcome _ hfb]
    · intro l1 p l2 id hdec hl1 hpok _
      have hseq := seqFallback_first_success outcome l1 p l2 id hl1 hpok
      rw [hdec, hseq]
      exact ⟨rfl, rfl⟩

theorem race_fallback_allfail_witness :
    (∀ p ∈ getHealthyProviders [] 0
        [{ url := "u1", name := "P1" }, { url := "u2", name := "P2" },
         { url := "u3", name := "P3" }, { url := "u4", name := "P4" }],
      isSuccess ((fun _ : Provider => FetchOutcome.err) p) = false) ∧
    (raceProviders
        [{ url := "u1", name := "P1" }, { url := "u2", name := "P2" },
         { url := "u3", name := "P3" }, { url := "u4", name := "P4" }] [] 0
        (fun _ => FetchOutcome.err) (fun _ => 0)).fallbackTried =
      (getHealthyProviders [] 0
        [{ url := "u1", name := "P1" }, { url := "u2", name := "P2" },
         { url := "u3", name := "P3" }, { url := "u4", name := "P4" }]).drop 3 :=
  ⟨by decide,
   (race_fallback_allfail
     [{ url := "u1", name := "P1" }, { url := "u2", name := "P2" },
      { url := "u3", name := "P3" }, { url := "u4", name := "P4" }] [] 0
     (fun _ => FetchOutcome.err) (fun _ => 0)).2.2.2.1 (by decide)⟩

/-! ### Counting `markProviderFailed` calls -/

theorem count_racingFailMarks_self (p : Provider) (o : FetchOutcome) :
    (racingFailMarks p o).count p.url = (racingFailMarks p o).length := by
  cases o with
  | err => simp [racingFailMarks]
  | resp ok id => cases ok <;> simp [racingFailMarks]

theorem count_racingFailMarks_ne (p : Provider) (o : FetchOutcome) (u : String)
    (hne : p.url ≠ u) : (racingFailMarks p o).count u = 0 := by
  apply List.count_eq_zero.2
  intro hmem
  cases o with
  | err =>
    simp [racingFailMarks] at hmem
    exact hne hmem.symm
  | resp ok id =>
    cases ok with
    | false =>
      simp [racingFailMarks] at hmem
      exact hne hmem.symm
    | true => simp [racingFailMarks] at hmem

theorem count_flatMap_marks_not_mem (outcome : Provider → FetchOutcome)
    (l : List Provider) (u : String) (h : u ∉ l.map Provider.url) :
    (l.flatMap (fun p => racingFailMarks p (outcome p))).count u = 0 := by
  induction l with
  | nil => simp
  | cons p t ih =>
    simp only [List.map_cons, List.mem_cons, not_or] at h
    have h1 : p.url ≠ u := fun hh => h.1 hh.symm
    rw [List.flatMap_cons, List.count_append, count_racingFailMarks_ne p _ u h1, ih h.2]

theorem count_flatMap_marks_mem (outcome : Provider → FetchOutcome)
    (l : List Provider) (p : Provider) (hnd : (l.map Provider.url).Nodup) (hp : p ∈ l) :
    (l.flatMap (fun q => racingFailMarks q (outcome q))).count p.url =
      (racingFailMarks p (outcome p)).length := by
  induction l with
  | nil => cases hp
  | cons q t ih =>
    simp only [List.map_cons, List.nodup_cons] at hnd
    rcases List.mem_cons.1 hp with rfl | hpt
    · rw [List.flatMap_cons, List.count_append, count_racingFailMarks_self,
        count_flatMap_marks_not_mem outcome t p.url hnd.1, Nat.add_zero]
    · have hne : q.url ≠ p.url := by
        intro hh
        exact hnd.1 (hh ▸ List.mem_map_of_mem Provider.url hpt)
      rw [List.flatMap_cons, List.count_append, count_racingFailMarks_ne q _ _ hne,
        ih hnd.2 hpt, Nat.zero_add]

/-! ### Claim C1 -/

/-- C1 fails on the code: a single racing attempt that fails with a
non-success HTTP status receives two `markProviderFailed` calls, not
one — the marking before the `throw` is followed by a second marking in
the attempt's own `catch` block, which receives that same throw.  Here
the only provider makes one racing attempt, no fallback attempt is made,
and its failure counter is bumped twice. -/
theorem race_single_mark_counterexample :
    (raceProviders [{ url := "u1", name := "P1" }] [] 0
        (fun _ => FetchOutcome.resp false 7) (fun _ => 0)).failCalls.count "u1" = 2 ∧
    (raceProviders [{ url := "u1", name := "P1" }] [] 0
        (fun _ => FetchOutcome.resp false 7) (fun _ => 0)).racingSet =
      [{ url := "u1", name := "P1" }] ∧
    (raceProviders [{ url := "u1", name := "P1" }] [] 0
        (fun _ => FetchOutcome.resp false 7) (fun _ => 0)).fallbackTried = [] := by
  refine ⟨?_, ?_, ?_⟩ <;> decide

/-- C1 (amended): per failed attempt, `markProviderFailed` is called
exactly once for a racing attempt failing by error or timeout, exactly
twice for a racing attempt failing with a non-success HTTP status (the
pre-throw mark plus the mark in the attempt's own catch), exactly once
for a failing sequential attempt, and never for a successful attempt or
a provider never attempted. -/
theorem markProviderFailed_call_counts (ps : List Provider) (h : HealthMap) (now : Int)
    (outcome : Provider → FetchOutcome) (time : Provider → Nat)
    (hnd : (ps.map Provider.url).Nodup) (p : Provider)
    (hp : p ∈ getHealthyProviders h now ps) :
    (raceProviders ps h now outcome time).failCalls.count p.url =
      if p ∈ (getHealthyProviders h now ps).take 3 then
        (match outcome p with
         | .err => 1
         | .resp ok _ => if ok then 0 else 2)
      else if p ∈ (raceProviders ps h now outcome time).fallbackTried ∧
          isSuccess (outcome p) = false then 1 else 0 := by
  have hndG : ((getHealthyProviders h now ps).map Provider.url).Nodup :=
    ((perm_insertionSortBy _ ps).map Provider.url).nodup_iff.2 hnd
  have hTD : (((getHealthyProviders h now ps).take 3).map Provider.url ++
      ((getHealthyProviders h now ps).drop 3).map Provider.url).Nodup := by
    rw [← List.map_append, List.take_append_drop]
    exact hndG
  obtain ⟨hndT, hndD, hdisj⟩ := List.nodup_append.1 hTD
  have hlen : (match outcome p with
      | FetchOutcome.err => 1
      | FetchOutcome.resp ok _ => if ok then 0 else 2) =
      (racingFailMarks p (outcome p)).length := by
    cases outcome p with
    | err => simp [racingFailMarks]
    | resp ok id => cases ok <;> simp [racingFailMarks]
  by_cases hpT : p ∈ (getHealthyProviders h now ps).take 3
  · rw [if_pos hpT, hlen]
    cases hw : raceWinner outcome time ((getHealthyProviders h now ps).take 3) with
    | some w =>
      obtain ⟨q, j⟩ := w
      simp only [raceProviders_winner ps h now outcome time q j hw]
      exact count_flatMap_marks_mem outcome _ p hndT hpT
    | none =>
      simp only [raceProviders_noWinner ps h now outcome time hw]
      rw [List.count_append, count_flatMap_marks_mem outcome _ p hndT hpT]
      have hseq0 :
          ((sequentialFallback outcome ((getHealthyProviders h now ps).drop 3)).2.1).count
            p.url = 0 := by
        rw [seqFallback_marks_eq]
        apply List.count_eq_zero_of_not_mem
        intro hmem
        have hsubT : List.Sublist
            ((sequentialFallback outcome ((getHealthyProviders h now ps).drop 3)).2.2.filter
              (fun q => !(isSuccess (outcome q))))
            ((getHealthyProviders h now ps).drop 3) :=
          (List.filter_sublist _).trans (seqFallback_tried_sublist outcome _)
        have hmemD : p.url ∈ ((getHealthyProviders h now ps).drop 3).map Provider.url :=
          (hsubT.map Provider.url).subset hmem
        exact hdisj (List.mem_map_of_mem Provider.url hpT) hmemD
      rw [hseq0, Nat.add_zero]
  · rw [if_neg hpT]
    have hpD : p ∈ (getHealthyProviders h now ps).drop 3 := by
      rw [← List.take_append_drop 3 (getHealthyProviders h now ps)] at hp
      rcases List.mem_append.1 hp with hT | hD
      · exact absurd hT hpT
      · exact hD
    have hpDu : p.url ∈ ((getHealthyProviders h now ps).drop 3).map Provider.url :=
      List.mem_map_of_mem Provider.url hpD
    have hpTu : p.url ∉ ((getHealthyProviders h now ps).take 3).map Provider.url :=
      fun hh => hdisj hh hpDu
    cases hw : raceWinner outcome time ((getHealthyProviders h now ps).take 3) with
    | some w =>
      obtain ⟨q, j⟩ := w
      simp only [raceProviders_winner ps h now outcome time q j hw]
      rw [count_flatMap_marks_not_mem outcome _ p.url hpTu, if_neg]
      simp
    | none =>
      simp only [raceProviders_noWinner ps h now outcome time hw]
      rw [List.count_append, count_flatMap_marks_not_mem outcome _ p.url hpTu,
        Nat.zero_add, seqFallback_marks_eq]
      have hndS : (((sequentialFallback outcome
          ((getHealthyProviders h now ps).drop 3)).2.2.filter
            (fun q => !(isSuccess (outcome q)))).map Provider.url).Nodup := by
        refine List.Nodup.sublist ?_ hndD
        exact ((List.filter_sublist _).trans (seqFallback_tried_sublist outcome _)).map
          Provider.url
      by_cases hpS : p ∈ (sequentialFallback outcome
          ((getHealthyProviders h now ps).drop 3)).2.2.filter
            (fun q => !(isSuccess (outcome q)))
      · obtain ⟨htried, hfailb⟩ := List.mem_filter.1 hpS
        rw [if_pos ⟨htried, by simpa using hfailb⟩]
        exact List.count_eq_one_of_mem hndS (List.mem_map_of_mem Provider.url hpS)
      · rw [if_neg, List.count_eq_zero_of_not_mem]
        · intro hmem
          obtain ⟨q, hqS, hqu⟩ := List.mem_map.1 hmem
          have hqD : q ∈ (getHealthyProviders h now ps).drop 3 :=
            ((List.filter_sublist _).trans (seqFallback_tried_sublist outcome _)).subset hqS
          have : q = p := List.inj_on_of_nodup_map hndD hqD hpD hqu
          exact hpS (this ▸ hqS)
        · intro hcond
          exact hpS (List.mem_filter.2 ⟨hcond.1, by simpa using hcond.2⟩)

theorem markProviderFailed_call_counts_witness :
    ((([{ url := "u1", name := "P1" }, { url := "u2", name := "P2" }] :
        List Provider).map Provider.url).Nodup ∧
      ({ url := "u2", name := "P2" } : Provider) ∈
        getHealthyProviders [] 0
          [{ url := "u1", name := "P1" }, { url := "u2", name := "P2" }]) ∧
    (raceProviders [{ url := "u1", name := "P1" }, { url := "u2", name := "P2" }] [] 0
        (fun _ => FetchOutcome.err) (fun _ => 0)).failCalls.count "u2" =
      if ({ url := "u2", name := "P2" } : Provider) ∈
          (getHealthyProviders [] 0
            [{ url := "u1", name := "P1" }, { url := "u2", name := "P2" }]).take 3 then
        (match (fun _ : Provider => FetchOutcome.err) ({ url := "u2", name := "P2" } : Provider) with
         | FetchOutcome.err => 1
         | FetchOutcome.resp ok _ => if ok then 0 else 2)
      else if ({ url := "u2", name := "P2" } : Provider) ∈
          (raceProviders [{ url := "u1", name := "P1" }, { url := "u2", name := "P2" }] [] 0
            (fun _ => FetchOutcome.err) (fun _ => 0)).fallbackTried ∧
          isSuccess ((fun _ : Provider => FetchOutcome.err)
            ({ url := "u2", name := "P2" } : Provider)) = false then 1 else 0 :=
  ⟨⟨by decide, by decide⟩,
   markProviderFailed_call_counts
     [{ url := "u1", name := "P1" }, { url := "u2", name := "P2" }] [] 0
     (fun _ => FetchOutcome.err) (fun _ => 0) (by decide)
     { url := "u2", name := "P2" } (by decide)⟩

/-! ### Handler lemmas -/

/-- Every way `runPipeline` ends: an uncaught rejection, or a 200
response with the branch's content type; the derived cache key is always
recorded, and the outbound request description is exposed exactly when
this call ran the producer. -/
theorem runPipeline_shape (st : HandlerState) (cache1 : CacheMap) (now : Int)
    (outcome : Provider → FetchOutcome) (time : Provider → Nat)
    (respBody : Nat → Payload) (pending : Nat → Except String Payload) (fresh : Nat)
    (cacheKey : String) (binaryTTL : Bool) (ct : String) (oq : String) :
    ((∃ e, (runPipeline st cache1 now outcome time respBody pending fresh
        cacheKey binaryTTL ct oq).result = Except.error e) ∨
     (∃ data, (runPipeline st cache1 now outcome time respBody pending fresh
        cacheKey binaryTTL ct oq).result = Except.ok (response200 ct data))) ∧
    (runPipeline st cache1 now outcome time respBody pending fresh
      cacheKey binaryTTL ct oq).cacheKeyUsed = some cacheKey ∧
    ((runPipeline st cache1 now outcome time respBody pending fresh
        cacheKey binaryTTL ct oq).producerRuns = 1 →
      (runPipeline st cache1 now outcome time respBody pending fresh
        cacheKey binaryTTL ct oq).outboundQuery = some oq) := by
  unfold runPipeline
  dsimp only
  by_cases hd : (deduplicatedFetch st.inflight cacheKey fresh).producerRuns = 0
  · rw [if_pos hd]
    cases hp : pending (deduplicatedFetch st.inflight cacheKey fresh).promiseId with
    | ok data => exact ⟨Or.inr ⟨data, rfl⟩, rfl, by intro h; exact absurd h (by simp)⟩
    | error e => exact ⟨Or.inl ⟨e, rfl⟩, rfl, by intro h; exact absurd h (by simp)⟩
  · rw [if_neg hd]
    cases hr : (raceProviders DOH_PROVIDERS st.health now outcome time).result with
    | ok id => exact ⟨Or.inr ⟨respBody id, rfl⟩, rfl, fun _ => rfl⟩
    | error e => exact ⟨Or.inl ⟨e, rfl⟩, rfl, fun _ => rfl⟩

/-! ### Claim C9 -/

/-- C9 fails on the code: the JSON discriminator is tested before the
`dns` parameter, so a GET carrying both `dns=AAAA` and `Accept:
application/dns-json` is served on the JSON path with Content-Type
`application/dns-json`, not on the binary path. -/
theorem get_routing_counterexample :
    jsTruthy (some "AAAA") = true ∧
    (GET { dns := some "AAAA", nameParam := none, typeParam := none,
           accept := some DNS_JSON_TYPE, contentTypeHeader := none, body := [] }
       { cache := [], inflight := [], health := [] } 0
       (fun _ => FetchOutcome.resp true 0) (fun _ => 0) (fun _ => [1])
       (fun _ => Except.ok []) 0).result =
      Except.ok { status := 200, contentTypeHeader := some DNS_JSON_TYPE,
                  body := some [1], bodyText := none } ∧
    some DNS_JSON_TYPE ≠ some DNS_MESSAGE_TYPE := by
  refine ⟨by decide, by decide, by decide⟩

/-- C9 (amended): a GET matching the JSON discriminator (Accept header
`application/dns-json`, or a truthy `name` parameter) is served on the
JSON path with Content-Type `application/dns-json` — this takes
precedence over `dns`; a GET with a truthy `dns` parameter and neither
JSON discriminator is served on the binary path with Content-Type
`application/dns-message`; a GET matching neither and a POST whose
Content-Type is not `application/dns-message` get the fixed 400 with no
provider contacted. -/
theorem handler_routing (req : Request) (st : HandlerState) (now : Int)
    (outcome : Provider → FetchOutcome) (time : Provider → Nat)
    (respBody : Nat → Payload) (pending : Nat → Except String Payload) (fresh : Nat) :
    ((req.accept = some DNS_JSON_TYPE ∨ jsTruthy req.nameParam = true) →
      (∃ e, (GET req st now outcome time respBody pending fresh).result =
        Except.error e) ∨
      (∃ data, (GET req st now outcome time respBody pending fresh).result =
        Except.ok (response200 DNS_JSON_TYPE data))) ∧
    (req.accept ≠ some DNS_JSON_TYPE → jsTruthy req.nameParam = false →
      jsTruthy req.dns = true →
      (∃ e, (GET req st now outcome time respBody pending fresh).result =
        Except.error e) ∨
      (∃ data, (GET req st now outcome time respBody pending fresh).result =
        Except.ok (response200 DNS_MESSAGE_TYPE data))) ∧
    (req.accept ≠ some DNS_JSON_TYPE → jsTruthy req.nameParam = false →
      jsTruthy req.dns = false →
      (GET req st now outcome time respBody pending fresh).result =
        Except.ok (response400 "Missing dns parameter") ∧
      (GET req st now outcome time respBody pending fresh).providersTried = [] ∧
      (GET req st now outcome time respBody pending fresh).producerRuns = 0 ∧
      (GET req st now outcome time respBody pending fresh).state = st) ∧
    (req.contentTypeHeader ≠ some DNS_MESSAGE_TYPE →
      (POST req st now outcome time respBody pending fresh).result =
        Except.ok (response400 "Invalid Content-Type") ∧
      (POST req st now outcome time respBody pending fresh).providersTried = [] ∧
      (POST req st now outcome time respBody pending fresh).producerRuns = 0 ∧
      (POST req st now outcome time respBody pending fresh).state = st) := by
  refine ⟨?_, ?_, ?_, ?_⟩
  · intro hj
    unfold GET
    dsimp only
    rw [if_pos hj]
    cases hhit : (getFromCache st.cache now
        (getCacheKeyStr ("json:" ++ jsTemplateStr req.nameParam ++ ":" ++
          typeOrA req.typeParam))).1 with
    | some data => exact Or.inr ⟨data, rfl⟩
    | none => exact (runPipeline_shape st _ now outcome time respBody pending fresh
        _ false DNS_JSON_TYPE _).1
  · intro hna hnn hd
    have hnj : ¬ (req.accept = some DNS_JSON_TYPE ∨ jsTruthy req.nameParam = true) := by
      intro hc
      rcases hc with hc | hc
      · exact hna hc
      · rw [hnn] at hc; exact Bool.noConfusion hc
    unfold GET
    dsimp only
    rw [if_neg hnj, if_pos hd]
    cases hhit : (getFromCache st.cache now (getCacheKeyStr (req.dns.getD ""))).1 with
    | some data => exact Or.inr ⟨data, rfl⟩
    | none => exact (runPipeline_shape st _ now outcome time respBody pending fresh
        _ true DNS_MESSAGE_TYPE _).1
  · intro hna hnn hd
    have hnj : ¬ (req.accept = some DNS_JSON_TYPE ∨ jsTruthy req.nameParam = true) := by
      intro hc
      rcases hc with hc | hc
      · exact hna hc
      · rw [hnn] at hc; exact Bool.noConfusion hc
    have hnd : ¬ (jsTruthy req.dns = true) := by
      rw [hd]; exact Bool.noConfusion
    unfold GET
    rw [if_neg hnj, if_neg hnd]
    exact ⟨rfl, rfl, rfl, rfl⟩
  · intro hct
    unfold POST
    rw [if_pos hct]
    exact ⟨rfl, rfl, rfl, rfl⟩

theorem handler_routing_witness :
    (({ dns := none, nameParam := none, typeParam := none, accept := none,
        contentTypeHeader := none, body := [] } : Request).accept ≠
      some DNS_JSON_TYPE) ∧
    ((GET
        { dns := none, nameParam := none, typeParam := none, accept := none,
          contentTypeHeader := none, body := [] }
        { cache := [], inflight := [], health := [] } 0
        (fun _ => FetchOutcome.err) (fun _ => 0) (fun _ => [])
        (fun _ => Except.ok []) 0).result =
      Except.ok (response400 "Missing dns parameter") ∧
     (GET
        { dns := none, nameParam := none, typeParam := none, accept := none,
          contentTypeHeader := none, body := [] }
        { cache := [], inflight := [], health := [] } 0
        (fun _ => FetchOutcome.err) (fun _ => 0) (fun _ => [])
        (fun _ => Except.ok []) 0).providersTried = [] ∧
     (GET
        { dns := none, nameParam := none, typeParam := none, accept := none,
          contentTypeHeader := none, body := [] }
        { cache := [], inflight := [], health := [] } 0
        (fun _ => FetchOutcome.err) (fun _ => 0) (fun _ => [])
        (fun _ => Except.ok []) 0).producerRuns = 0 ∧
     (GET
        { dns := none, nameParam := none, typeParam := none, accept := none,
          contentTypeHeader := none, body := [] }
        { cache := [], inflight := [], health := [] } 0
        (fun _ => FetchOutcome.err) (fun _ => 0) (fun _ => [])
        (fun _ => Except.ok []) 0).state =
      { cache := [], inflight := [], health := [] }) :=
  ⟨by decide,
   (handler_routing
      { dns := none, nameParam := none, typeParam := none, accept := none,
        contentTypeHeader := none, body := [] }
      { cache := [], inflight := [], health := [] } 0
      (fun _ => FetchOutcome.err) (fun _ => 0) (fun _ => [])
      (fun _ => Except.ok []) 0).2.2.1 (by decide) (by decide) (by decide)⟩

/-! ### Claim C10 -/

/-- C10: a GET whose Accept header is `application/dns-json` but which
has no `name` parameter is not rejected: it proceeds on the JSON path
(every emitted response has status 200), derives the cache key from the
interpolated `null` (`dns:json:null:A` for the default type), and the
producer's outbound request carries an empty `name`
(`?name=&type=A`). -/
theorem json_path_null_name (req : Request) (st : HandlerState) (now : Int)
    (outcome : Provider → FetchOutcome) (time : Provider → Nat)
    (respBody : Nat → Payload) (pending : Nat → Except String Payload) (fresh : Nat)
    (hacc : req.accept = some DNS_JSON_TYPE) (hname : req.nameParam = none)
    (htype : req.typeParam = none) :
    (∀ r, (GET req st now outcome time respBody pending fresh).result = Except.ok r →
      r.status = 200) ∧
    (GET req st now outcome time respBody pending fresh).cacheKeyUsed =
      some "dns:json:null:A" ∧
    ((GET req st now outcome time respBody pending fresh).producerRuns = 1 →
      (GET req st now outcome time respBody pending fresh).outboundQuery =
        some "?name=&type=A") := by
  have hj : req.accept = some DNS_JSON_TYPE ∨ jsTruthy req.nameParam = true := Or.inl hacc
  have hkey : getCacheKeyStr ("json:" ++ jsTemplateStr req.nameParam ++ ":" ++
      typeOrA req.typeParam) = "dns:json:null:A" := by
    rw [hname, htype]
    decide
  have hoq : "?name=" ++ encodeURIComponent (req.nameParam.getD "") ++ "&type=" ++
      typeOrA req.typeParam = "?name=&type=A" := by
    rw [hname, htype]
    decide
  unfold GET
  dsimp only
  rw [if_pos hj, hkey, hoq]
  cases hhit : (getFromCache st.cache now "dns:json:null:A").1 with
  | some data =>
    refine ⟨?_, rfl, ?_⟩
    · intro r hr
      injection hr with hr'
      rw [← hr']
      rfl
    · intro hruns
      exact absurd hruns (by simp)
  | none =>
    obtain ⟨hshape, hkeyu, houtq⟩ := runPipeline_shape st
      (getFromCache st.cache now "dns:json:null:A").2 now outcome time respBody
      pending fresh "dns:json:null:A" false DNS_JSON_TYPE "?name=&type=A"
    refine ⟨?_, hkeyu, houtq⟩
    intro r hr
    rcases hshape with ⟨e, he⟩ | ⟨data, hdata⟩
    · rw [he] at hr; exact Except.noConfusion hr
    · rw [hdata] at hr
      injection hr with hr'
      rw [← hr']
      rfl

theorem json_path_null_name_witness :
    (({ dns := none, nameParam := none, typeParam := none,
        accept := some DNS_JSON_TYPE, contentTypeHeader := none, body := [] } :
          Request).accept = some DNS_JSON_TYPE) ∧
    (GET
        { dns := none, nameParam := none, typeParam := none,
          accept := some DNS_JSON_TYPE, contentTypeHeader := none, body := [] }
        { cache := [], inflight := [], health := [] } 0
        (fun _ => FetchOutcome.resp true 0) (fun _ => 0) (fun _ => [2])
        (fun _ => Except.ok []) 0).cacheKeyUsed = some "dns:json:null:A" ∧
    ((GET
        { dns := none, nameParam := none, typeParam := none,
          accept := some DNS_JSON_TYPE, contentTypeHeader := none, body := [] }
        { cache := [], inflight := [], health := [] } 0
        (fun _ => FetchOutcome.resp true 0) (fun _ => 0) (fun _ => [2])
        (fun _ => Except.ok []) 0).producerRuns = 1 →
      (GET
        { dns := none, nameParam := none, typeParam := none,
          accept := some DNS_JSON_TYPE, contentTypeHeader := none, body := [] }
        { cache := [], inflight := [], health := [] } 0
        (fun _ => FetchOutcome.resp true 0) (fun _ => 0) (fun _ => [2])
        (fun _ => Except.ok []) 0).outboundQuery = some "?name=&type=A") :=
  ⟨rfl,
   (json_path_null_name
      { dns := none, nameParam := none, typeParam := none,
        accept := some DNS_JSON_TYPE, contentTypeHeader := none, body := [] }
      { cache := [], inflight := [], health := [] } 0
      (fun _ => FetchOutcome.resp true 0) (fun _ => 0) (fun _ => [2])
      (fun _ => Except.ok []) 0 rfl rfl rfl).2.1,
   (json_path_null_name
      { dns := none, nameParam := none, typeParam := none,
        accept := some DNS_JSON_TYPE, contentTypeHeader := none, body := [] }
      { cache := [], inflight := [], health := [] } 0
      (fun _ => FetchOutcome.resp true 0) (fun _ => 0) (fun _ => [2])
      (fun _ => Except.ok []) 0 rfl rfl rfl).2.2⟩

end DohCFP
